import Mathlib

/-!
Shallow embedding of the `exec` system service of the endly repository
(`src/system/exec/service.go`), together with theorems settling the
specification claims about it.

Conventions:
* Go strings are Lean `String`s; Go byte indexing is modelled by character
  indexing (all inputs of interest are ASCII).
* The remote shell is an oracle: `Exec.script` lists the `(stdout, error)`
  results the multi-command session will return, in order, and
  `Exec.issued` records every command actually written to the shell.
* Go `error` is `Option GoError`; the distinguished `ssh.ErrTerminated`
  is `GoError.terminated`.
* External collaborators (expander, criteria evaluator, secret store,
  extractor, event sink) are abstracted into `Ctx`; repository helpers that
  live outside `src/` (`util.EscapedContains`, `RunResponse.Add`, ...) are
  modelled from the spec and carry a doc comment saying so.
-/

/-- Go error values: the distinguished `ssh.ErrTerminated` and ordinary
message errors built with `fmt.Errorf`. -/
inductive GoError where
  | terminated : GoError
  | msg : String → GoError
  deriving DecidableEq, Repr

/-- Single-quote character as a string (Go `'`), written via escape. -/
def squote : String := "\x27"

/-- Single-quote character (Go `'`). -/
def squoteChar : Char := Char.ofNat 39

/-- Prefix test on character lists (kernel-computable). -/
def isPrefixList : List Char → List Char → Bool
  | [], _ => true
  | _ :: _, [] => false
  | c :: t, d :: s => c == d && isPrefixList t s

/-- Substring test on character lists: some suffix starts with `t`. -/
def containsList (t : List Char) : List Char → Bool
  | [] => isPrefixList t []
  | c :: rest => isPrefixList t (c :: rest) || containsList t rest

/-- Embeds Go `strings.Contains`. -/
def containsStr (s t : String) : Bool := containsList t.toList s.toList

/-- Leftmost-occurrence replacement on character lists. -/
def replaceFirstList (t rep : List Char) : List Char → List Char
  | [] => []
  | c :: rest =>
    if isPrefixList t (c :: rest) then rep ++ List.drop (t.length - 1) rest
    else c :: replaceFirstList t rep rest

/-- Embeds Go `strings.Replace(s, pat, rep, 1)` for a nonempty pattern. -/
def replaceFirst (s pat rep : String) : String :=
  if pat == "" then s
  else String.mk (replaceFirstList pat.toList rep.toList s.toList)

/-- Split worker: structural in the fuel, which starts at the input length
and therefore never runs out. -/
def splitOnAuxFuel (t : List Char) : Nat → List Char → List Char → List (List Char)
  | _, [], acc => [acc.reverse]
  | 0, s, acc => [acc.reverse ++ s]
  | Nat.succ n, c :: rest, acc =>
    if isPrefixList t (c :: rest) then
      acc.reverse :: splitOnAuxFuel t n (List.drop (t.length - 1) rest) []
    else splitOnAuxFuel t n rest (c :: acc)

/-- Embeds Go `strings.Split` for a nonempty separator: split around each
leftmost non-overlapping occurrence. -/
def strSplitOn (s t : String) : List String :=
  if t == "" then [s]
  else (splitOnAuxFuel t.toList s.toList.length s.toList []).map String.mk

/-- Character drop (Go byte slicing `s[n:]` on ASCII input). -/
def strDrop (s : String) (n : Nat) : String := String.mk (s.toList.drop n)

/-- Drop of the final character (Go `s[:len(s)-1]` on ASCII input). -/
def strDropLast (s : String) : String := String.mk s.toList.dropLast

/-- Embeds Go `strings.HasPrefix`. -/
def strStartsWith (s pre : String) : Bool := isPrefixList pre.toList s.toList

/-- Embeds Go `strings.HasSuffix`. -/
def strEndsWith (s suf : String) : Bool := isPrefixList suf.toList.reverse s.toList.reverse

/-- ASCII whitespace (the characters Go `strings.TrimSpace` strips on the
inputs of interest). -/
def isSpaceChar (c : Char) : Bool :=
  c == ' ' || c == '\t' || c == '\n' || c == '\r' || c == Char.ofNat 11 || c == Char.ofNat 12

/-- Embeds Go `strings.TrimSpace`. -/
def strTrim (s : String) : String :=
  String.mk (((s.toList.dropWhile isSpaceChar).reverse.dropWhile isSpaceChar).reverse)

/-- Embeds Go `strings.Join`. -/
def strJoin (sep : String) : List String → String
  | [] => ""
  | [x] => x
  | x :: rest => x ++ sep ++ strJoin sep rest

/-- Embeds Go `strings.Trim(s, cutset)` with the cutset given as characters. -/
def trimCharSet (s : String) (cut : List Char) : String :=
  String.mk (((s.toList.dropWhile (fun c => cut.contains c)).reverse.dropWhile
    (fun c => cut.contains c)).reverse)

/-- Embeds Go `path.Split`: split after the final slash. -/
def pathSplit (p : String) : String × String :=
  match strSplitOn p "/" with
  | [] => ("", p)
  | [_] => ("", p)
  | parts => (strJoin "/" parts.dropLast ++ "/", parts.getLastD "")

/-- Embeds Go `path.Ext` on a slash-free name: the suffix starting at the
final dot, empty when there is no dot. -/
def pathExt (name : String) : String :=
  match strSplitOn name "." with
  | [] => ""
  | [_] => ""
  | parts => "." ++ parts.getLastD ""

/-- Go map read: first binding of the key in the association list. -/
def lookupEnv : List (String × String) → String → Option String
  | [], _ => none
  | kv :: rest, k => if kv.1 == k then some kv.2 else lookupEnv rest k

/-- Go map write: replace the binding of the key, or append it. -/
def updateEnv : List (String × String) → String → String → List (String × String)
  | [], k, v => [(k, v)]
  | kv :: rest, k, v => if kv.1 == k then (k, v) :: rest else kv :: updateEnv rest k v

/-- Modelled from the spec: `util.EscapeStdout` (repository code not under
`src/`) strips ANSI/backspace escape artifacts from shell output. -/
def escapeStdout (s : String) : String :=
  String.mk (s.toList.filter (fun c => !(c == Char.ofNat 27 || c == Char.ofNat 8)))

/-- Modelled from the spec: `util.EscapedContains` (repository code not
under `src/`), the escape-sequence-insensitive substring check: artifacts
are stripped from both sides before comparing. -/
def escapedContains (s t : String) : Bool :=
  containsStr (escapeStdout s) (escapeStdout t)

/-- Modelled from the spec: `util.CheckNoSuchFileOrDirectory` (repository
code not under `src/`) reports whether stdout indicates
"No such file or directory". -/
def checkNoSuchFileOrDirectory (stdout : String) : Bool :=
  containsStr stdout "No such file or directory"

/-- Modelled from the spec: `util.IsPermitted` (repository code not under
`src/`) reports that output does not carry a permission-denied signature. -/
def isPermitted (stdout : String) : Bool :=
  !(containsStr stdout "Permission denied")

/-- Modelled from the spec: `util.CommandNotFound` (repository code not
under `src/`), the standard shell command-not-found fragment. -/
def commandNotFound : String := "command not found"

/-- Obfuscated sudo credentials key (service.go:24). -/
def sudoCredentialKey : String := "**sudo**"

/-- Embeds `toolbox.AsInt` as used on `echo $?` output: parse an integer,
defaulting to 0. -/
def asInt (s : String) : Int := (s.toInt?).getD 0

/-- Execution-state snapshot handed to `When` predicates and dollar-variable
expansion (`buildExecutionState`, service.go:309-328); the ambient workflow
state cloned underneath is abstracted into `Ctx`. -/
structure ExecState where
  cmds : List (String × String)
  output : String
  stdout : String

/-- One extraction rule of an `ExtractCommand` (regex and key); rule
application itself is the external Extractor collaborator. -/
structure ExtractRule where
  regExpr : String
  key : String
  deriving DecidableEq, Repr

/-- External collaborators of the service (spec section 6): expander,
criteria evaluator, secret store, extractor, plus the
`ENDLY_SECRET_REVEAL` environment switch. -/
structure Ctx where
  expand : String → String
  evalCriteria : ExecState → String → Bool × Option GoError
  expandAsText : ExecState → String → String
  secretsExpand : String → List (String × String) → String × Option GoError
  secretReveal : Bool
  applyRule : ExtractRule → List (String × String) → List String → List (String × String) × Option GoError

/-- One entry of the `RunResponse.Cmd` log. -/
structure CommandLog where
  stdin : String
  stdout : String
  error : Option GoError
  deriving DecidableEq, Repr

/-- Modelled from the spec: `RunResponse` (its Go definition is repository
code not under `src/`): session id, ordered command log, accumulated output
and extracted data. -/
structure RunResponse where
  sessionID : String
  cmd : List CommandLog
  output : String
  data : List (String × String)
  deriving DecidableEq, Repr

/-- Modelled from the spec: `NewRunResponse` builds an empty response for a
session. -/
def newRunResponse (sessionID : String) : RunResponse :=
  { sessionID := sessionID, cmd := [], output := "", data := [] }

/-- Modelled from the spec: `RunResponse.Add` appends to the ordered
command log. -/
def addLog (r : RunResponse) (l : CommandLog) : RunResponse :=
  { r with cmd := r.cmd ++ [l] }

/-- Modelled from the spec: `ExtractCommand` (its Go definition is
repository code not under `src/`): a command paired with a guard predicate,
timeout, terminators and output-validation and capture rules, with the
fields that the functions under `src/` read. -/
structure ExtractCommand where
  command : String := ""
  when : String := ""
  timeoutMs : Nat := 0
  terminators : List String := []
  errors : List String := []
  success : List String := []
  extract : List ExtractRule := []
  deriving DecidableEq, Repr

/-- Modelled from the spec: request `Options`. -/
structure Options where
  env : List (String × String) := []
  systemPaths : List String := []
  directory : String := ""
  timeoutMs : Nat := 0
  terminators : List String := []
  deriving DecidableEq, Repr

/-- Modelled from the spec: `ExtractRequest` as consumed by
`runExtractCommands` and `executeCommand`; `targetCredentials` stands for
`request.Target.Credentials`. -/
structure ExtractRequest where
  options : Options := {}
  commands : List ExtractCommand := []
  secrets : List (String × String) := []
  superUser : Bool := false
  autoSudo : Bool := false
  checkError : Bool := false
  targetCredentials : String := ""
  deriving Repr

/-- Per-target session state: the `model.Session` fields the service reads
and writes. -/
structure Sess where
  envVariables : List (String × String) := []
  currentDirectory : String := ""
  username : String := ""
  shellPrompt : String := ""
  superUserAuth : Bool := false
  path : List String := []
  deriving DecidableEq, Repr

/-- A session together with its shell oracle: `script` lists the
`(stdout, error)` results the remote shell will return, in order;
`reconnects` lists the results of successive `Reconnect` calls; `issued`
records every command written to the shell. -/
structure Exec where
  sess : Sess := {}
  script : List (String × Option GoError) := []
  reconnects : List (Option GoError) := []
  issued : List String := []
  deriving DecidableEq, Repr

/-- Embeds `Session.Run`: consume the next scripted shell result and record
the command; timeouts, listeners and terminator framing live inside the
oracle. -/
def sessionRun (st : Exec) (command : String) : String × Option GoError × Exec :=
  match st.script with
  | [] => ("", none, { st with issued := st.issued ++ [command] })
  | r :: rest => (r.1, r.2, { st with script := rest, issued := st.issued ++ [command] })

/-- Embeds `Session.Reconnect`: consume the next scripted reconnect result. -/
def sessionReconnect (st : Exec) : Option GoError × Exec :=
  match st.reconnects with
  | [] => (none, st)
  | r :: rest => (r, { st with reconnects := rest })

/-- Embeds `rumCommandTemplate` (service.go:228-234) with the template
already formatted; its begin/end events only publish to the event sink. -/
def rumCommandTemplate (st : Exec) (command : String) : String × Option GoError × Exec :=
  sessionRun st command

/-- Shell text of the export issued by `setEnvVariable`
(service.go:170-175): values containing a space are single-quoted. -/
def exportCommandText (name value : String) : String :=
  let v := strTrim value
  if v.toList.contains ' ' then "export " ++ name ++ "=" ++ squote ++ v ++ squote
  else "export " ++ name ++ "=" ++ v

/-- Cached-value test of `setEnvVariable` (service.go:163-167): the name is
bound and its cached value equals the new one. -/
def envCached (env : List (String × String)) (name newValue : String) : Bool :=
  match lookupEnv env name with
  | some actual => newValue == actual
  | none => false

/-- Embeds `setEnvVariable` (service.go:160-177): no-op when the expanded
value equals the cached one; otherwise the cache is written and the export
is issued. -/
def setEnvVariable (ctx : Ctx) (st : Exec) (name newValue0 : String) : Option GoError × Exec :=
  let newValue := ctx.expand newValue0
  if envCached st.sess.envVariables name newValue then
    (none, st)
  else
    let st := { st with sess :=
      { st.sess with envVariables := updateEnv st.sess.envVariables name newValue } }
    let r := rumCommandTemplate st (exportCommandText name newValue)
    (r.2.1, r.2.2)

/-- The session state after `setEnvVariable` has written the cache
(service.go:168), before the export runs. -/
def envUpdatedState (st : Exec) (name v : String) : Exec :=
  { st with sess := { st.sess with envVariables := updateEnv st.sess.envVariables name v } }

/-- Embeds `setEnvVariables` (service.go:150-158); the Go map range is the
list order here. -/
def setEnvVariables (ctx : Ctx) : Exec → List (String × String) → Option GoError × Exec
  | st, [] => (none, st)
  | st, kv :: rest =>
    match setEnvVariable ctx st kv.1 kv.2 with
    | (some e, st) => (some e, st)
    | (none, st) => setEnvVariables ctx st rest

/-- Directory normalization inlined in `changeDirectory`
(service.go:183-189): a final path element carrying a file extension is
replaced by its parent, and a trailing slash is stripped from a
multi-character path. -/
def normalizeDir (directory : String) : String :=
  let pn := pathSplit directory
  let directory := if pathExt pn.2 != "" then pn.1 else directory
  if directory.length > 1 && strEndsWith directory "/" then strDropLast directory else directory

/-- Embeds `changeDirectory` (service.go:179-203); the `commandInfo`
parameter of the source is unused there and dropped here. -/
def changeDirectory (_ctx : Ctx) (st : Exec) (directory0 : String) : String × Option GoError × Exec :=
  if directory0 == "" then ("", none, st)
  else
    let directory := normalizeDir directory0
    if st.sess.currentDirectory == directory then ("", none, st)
    else
      let r := rumCommandTemplate st ("cd " ++ directory)
      match r.2.1 with
      | some e => ("", some e, r.2.2)
      | none =>
        if !(checkNoSuchFileOrDirectory r.1) then
          (r.1, none, { r.2.2 with sess := { (r.2.2).sess with currentDirectory := directory } })
        else (r.1, none, r.2.2)

/-- Embeds `execService.run` (service.go:205-226): a `Terminated` error
triggers one reconnect, a rehydration of the cached env and working
directory, and a single retry; every other error is returned as-is. -/
def execRun (ctx : Ctx) (st : Exec) (command : String) (_timeoutMs : Nat)
    (_terminators : List String) : String × Option GoError × Exec :=
  let r := sessionRun st command
  match r.2.1 with
  | none => (r.1, none, r.2.2)
  | some GoError.terminated =>
    let rc := sessionReconnect r.2.2
    match rc.1 with
    | some e => ("", some e, rc.2)
    | none =>
      let st := rc.2
      let currentDirectory := st.sess.currentDirectory
      let env := st.sess.envVariables
      let st := { st with sess := { st.sess with envVariables := [], currentDirectory := "" } }
      let st := env.foldl (fun acc kv => (setEnvVariable ctx acc kv.1 kv.2).2) st
      let st := (changeDirectory ctx st currentDirectory).2.2
      sessionRun st command
  | some e => (r.1, some e, r.2.2)

/-- Embeds `match` (service.go:257-267); named `matchFragment` because
`match` is reserved in Lean. Returns the first candidate contained in
stdout (escape-insensitively), or the empty string. -/
def matchFragment (stdout : String) (candidates : List String) : String :=
  match candidates.find? (fun candidate => escapedContains stdout candidate) with
  | some candidate => candidate
  | none => ""

/-- Embeds `commandAsSuperUser` (service.go:269-277). -/
def commandAsSuperUser (session : Sess) (command : String) : String :=
  if session.username == "root" then command
  else if command.length > 1 && !(containsStr command "sudo") then "sudo " ++ command
  else command

/-- Embeds `validateStdout` (service.go:279-291): error fragments are
checked first, then non-empty success fragments. -/
def validateStdout (stdout command : String) (execution : ExtractCommand) : Option GoError :=
  let errorMatch := matchFragment stdout execution.errors
  if errorMatch != "" then
    some (GoError.msg ("encounter error fragment: (" ++ errorMatch ++ "), command:" ++
      command ++ ", stdout: " ++ stdout))
  else if execution.success.length > 0 then
    if matchFragment stdout execution.success == "" then
      some (GoError.msg ("failed to match any fragment: " ++ squote ++
        strJoin "," execution.success ++ squote ++ ", command: " ++ command ++
        "; stdout: " ++ stdout))
    else none
  else none

/-- Embeds `buildExecutionState` (service.go:309-328), restricted to the
overlay it adds on top of the cloned ambient state. -/
def buildExecutionState (response : RunResponse) : ExecState :=
  { cmds := response.cmd.map (fun l => (l.stdin, l.stdout))
    output := response.output
    stdout := (response.cmd.getLastD { stdin := "", stdout := "", error := none }).stdout }

/-- Embeds `hasTerminator` (service.go:330-340). -/
def hasTerminator (stdout : String) (terminators : List String) : Bool :=
  terminators.any (fun t => containsStr stdout t)

/-- Embeds `getTerminators` (service.go:447-462). -/
def getTerminators (options : Options) (session : Sess) (execution : ExtractCommand) : List String :=
  let terminators : List String := []
  let terminators := if execution.terminators.length > 0
    then terminators ++ execution.terminators else terminators ++ options.terminators
  let terminators := terminators ++ ["$ "]
  let superUserPrompt := replaceFirst session.shellPrompt "$" "#"
  let superUserPrompt := if containsStr superUserPrompt "bash"
    then strDrop superUserPrompt 2 else superUserPrompt
  let terminators := terminators ++ [superUserPrompt]
  terminators ++ execution.errors

/-- Embeds `retryWithSudo` (service.go:441-445). -/
def retryWithSudo (ctx : Ctx) (st : Exec) (command : String) (timeoutMs : Nat)
    (terminators : List String) : String × Option GoError × Exec :=
  execRun ctx st (commandAsSuperUser st.sess command) timeoutMs (terminators ++ ["Password"])

/-- Modelled from the spec: the Extractor collaborator applied rule by rule
over the captured lines, stopping at the first error; an empty rule list
writes nothing and reports no error. -/
def runExtractRules (ctx : Ctx) : List ExtractRule → List (String × String) → List String →
    List (String × String) × Option GoError
  | [], data, _ => (data, none)
  | r :: rest, data, lines =>
    match ctx.applyRule r data lines with
    | (data, some e) => (data, some e)
    | (data, none) => runExtractRules ctx rest data lines

/-- Modelled from the spec: the synthetic sudo-password command built with
`NewExtractCommand(SudoCredentialKey, "", nil, ["Password", CommandNotFound])`
at service.go:303. -/
def sudoPasswordExtractCommand : ExtractCommand :=
  { command := sudoCredentialKey, errors := ["Password", commandNotFound] }

/-- Embeds the tail of `executeCommand` (service.go:418-438): output
accumulation, exit-code check, command log, stdout validation and
extraction. -/
def executeCommandFinish (ctx : Ctx) (st : Exec) (extractCommand : ExtractCommand)
    (response : RunResponse) (request : ExtractRequest) (securedCommand stdout : String)
    (err : Option GoError) (terminators : List String) : Option GoError × Exec × RunResponse :=
  let response := { response with output := response.output ++ stdout }
  let ec : Option GoError × Exec :=
    if request.checkError && !(hasTerminator stdout terminators) then
      let r := execRun ctx st "echo $?" request.options.timeoutMs terminators
      match r.2.1 with
      | none =>
        if asInt (strTrim r.1) != 0 then
          (some (GoError.msg ("exit code: " ++ toString (asInt (strTrim r.1)) ++ ", command: " ++
            securedCommand)), r.2.2)
        else (none, r.2.2)
      | some _ => (none, r.2.2)
    else (none, st)
  match ec with
  | (some e, st) => (some e, st, response)
  | (none, st) =>
    let response := addLog response { stdin := securedCommand, stdout := stdout, error := err }
    match err with
    | some e => (some e, st, response)
    | none =>
      match validateStdout stdout securedCommand extractCommand with
      | some e => (some e, st, response)
      | none =>
        let lastStdout := (response.cmd.getLastD { stdin := "", stdout := "", error := none }).stdout
        let ex := runExtractRules ctx extractCommand.extract response.data (strSplitOn lastStdout "\n")
        (ex.2, st, { response with data := ex.1 })

/-- Embeds `authSuperUserIfNeeded` (service.go:293-307) followed by the
continuation at service.go:418; `recurse` is the re-entrant call to
`executeCommand` for the synthetic password command (the run error is
overwritten by the auth result, as at service.go:413). -/
def executeAuthAndFinish
    (recurse : Exec → ExtractCommand → RunResponse → ExtractRequest →
      Option GoError × Exec × RunResponse)
    (ctx : Ctx) (st : Exec) (extractCommand : ExtractCommand) (response : RunResponse)
    (request : ExtractRequest) (securedCommand stdout : String) (err : Option GoError)
    (terminators : List String) (isSuperUserCmd : Bool) : Option GoError × Exec × RunResponse :=
  if isSuperUserCmd then
    let a : Option GoError × Exec × RunResponse :=
      if st.sess.superUserAuth && !(escapedContains stdout "Sorry, try again." &&
          escapedContains stdout "Password") then
        (none, st, response)
      else if escapedContains stdout "Password" then
        let st := { st with sess := { st.sess with superUserAuth := true } }
        let request := if request.secrets.length == 0
          then { request with secrets := [(sudoCredentialKey, request.targetCredentials)] }
          else request
        recurse st sudoPasswordExtractCommand response request
      else (none, st, response)
    match a.1 with
    | some e => (some e, a.2.1, a.2.2)
    | none => executeCommandFinish ctx a.2.1 extractCommand a.2.2 request securedCommand
        stdout none terminators
  else
    executeCommandFinish ctx st extractCommand response request securedCommand stdout err
      terminators

/-- Embeds `executeCommand` (service.go:342-439). Fuel bounds the sudo
password recursion; the `state.SetValue` write and the streaming listener
act only on collaborators abstracted into `Ctx`. -/
def executeCommand : Nat → Ctx → Exec → ExtractCommand → RunResponse → ExtractRequest →
    Option GoError × Exec × RunResponse
  | 0, _, st, _, response, _ => (some (GoError.msg "sudo recursion limit"), st, response)
  | Nat.succ fuel, ctx, st, extractCommand, response, request =>
    let securedCommand0 := ctx.expand extractCommand.command
    let terminators0 := getTerminators request.options st.sess extractCommand
    let isSuperUserCmd := containsStr securedCommand0 "sudo " || request.superUser
    if extractCommand.when != "" &&
        !(ctx.evalCriteria (buildExecutionState response) extractCommand.when).1 then
      let werr := (ctx.evalCriteria (buildExecutionState response) extractCommand.when).2
      (werr, st, addLog response { stdin := securedCommand0, stdout := "", error := werr })
    else
      let securedCommand1 :=
        if extractCommand.when != "" then securedCommand0
        else if containsStr securedCommand0 "$" then
          ctx.expandAsText (buildExecutionState response) securedCommand0
        else securedCommand0
      let terminators := if isSuperUserCmd && !st.sess.superUserAuth
        then terminators0 ++ ["Password"] else terminators0
      let securedCommand2 := if isSuperUserCmd
        then commandAsSuperUser st.sess securedCommand1 else securedCommand1
      let se := ctx.secretsExpand securedCommand2 request.secrets
      match se.2 with
      | some e => (some e, st, response)
      | none =>
        let insecureCommand := se.1
        let securedCommand := if ctx.secretReveal then insecureCommand else securedCommand2
        let timeoutMs := if extractCommand.timeoutMs > 0
          then extractCommand.timeoutMs else request.options.timeoutMs
        let r1 := execRun ctx st insecureCommand timeoutMs terminators
        let response1 := if response.output.length > 0 && !(strEndsWith response.output "\n")
          then { response with output := response.output ++ "\n" } else response
        if request.autoSudo && !(isPermitted r1.1) && ((r1.2.2).sess.username != "root") &&
            !(strStartsWith securedCommand "sudo") then
          let r2 := retryWithSudo ctx r1.2.2 insecureCommand request.options.timeoutMs terminators
          executeAuthAndFinish (executeCommand fuel ctx) ctx r2.2.2 extractCommand response1
            request securedCommand r2.1 r2.2.1 terminators true
        else
          executeAuthAndFinish (executeCommand fuel ctx) ctx r1.2.2 extractCommand response1
            request securedCommand r1.1 r1.2.1 terminators isSuperUserCmd

/-- Embeds one iteration of the `runExtractCommands` loop
(service.go:494-533): `cd` and `export` are intercepted for native state
tracking; compound or malformed forms invalidate the cached state before
delegating to `executeCommand`. A `none` first component means the loop
continues (a failed native export does not abort, service.go:522-524). -/
def execStep (fuel : Nat) (ctx : Ctx) (st : Exec) (extractCommand : ExtractCommand)
    (response : RunResponse) (request : ExtractRequest) : Option GoError × Exec × RunResponse :=
  let command := ctx.expand extractCommand.command
  let st := if containsStr command "rm " && containsStr command st.sess.currentDirectory
    then { st with sess := { st.sess with currentDirectory := "" } } else st
  if strStartsWith command "cd " then
    if !(containsStr command "&&") then
      let directory := strTrim (strDrop command 3)
      let r := changeDirectory ctx st directory
      let response := addLog response { stdin := command, stdout := r.1, error := r.2.1 }
      match r.2.1 with
      | some e => (some e, r.2.2, response)
      | none =>
        match validateStdout r.1 command extractCommand with
        | some e => (some e, r.2.2, response)
        | none => (none, r.2.2, response)
    else
      let st := { st with sess := { st.sess with currentDirectory := "" } }
      executeCommand fuel ctx st extractCommand response request
  else if strStartsWith command "export " then
    if !(containsStr command "&&") then
      match strSplitOn (strDrop command 7) "=" with
      | [k0, v0] =>
        let key := strTrim k0
        let value := trimCharSet (strTrim v0) [squoteChar, '"']
        let r := setEnvVariable ctx st key value
        let response := addLog response { stdin := command, stdout := "", error := r.1 }
        (none, r.2, response)
      | _ =>
        let st := { st with sess := { st.sess with envVariables := [] } }
        executeCommand fuel ctx st extractCommand response request
    else
      let st := { st with sess := { st.sess with envVariables := [] } }
      executeCommand fuel ctx st extractCommand response request
  else
    executeCommand fuel ctx st extractCommand response request

/-- Embeds the command loop of `runExtractCommands` (service.go:494-535);
the Go function returns a nil response alongside an error, here the
response at the failure point is kept next to the error. -/
def runLoop (fuel : Nat) (ctx : Ctx) : List ExtractCommand → Exec → RunResponse →
    ExtractRequest → Option GoError × Exec × RunResponse
  | [], st, response, _ => (none, st, response)
  | c :: rest, st, response, request =>
    match execStep fuel ctx st c response request with
    | (some e, st, response) => (some e, st, response)
    | (none, st, response) => runLoop fuel ctx rest st response request

/-- Modelled from the spec: `Path.EnvValue` joins the ordered PATH entries
with a colon. -/
def pathEnvValue (p : List String) : String := strJoin ":" p

/-- Embeds `applyCommandOptions` (service.go:236-255); `Path.Unshift`
(front insertion, per the spec) is inlined. -/
def applyCommandOptions (ctx : Ctx) (options : Options) (st : Exec) : Option GoError × Exec :=
  let s1 : Option GoError × Exec :=
    if options.systemPaths.length > 0 then
      let newPath := options.systemPaths ++ st.sess.path
      let st := { st with sess := { st.sess with path := newPath } }
      setEnvVariable ctx st "PATH" (pathEnvValue newPath)
    else (none, st)
  match s1 with
  | (some e, st) => (some e, st)
  | (none, st) =>
    match setEnvVariables ctx st options.env with
    | (some e, st) => (some e, st)
    | (none, st) =>
      if options.directory != "" then
        let directory := ctx.expand options.directory
        let r := changeDirectory ctx st directory
        match r.2.1 with
        | some e => (some e, r.2.2)
        | none => (none, r.2.2)
      else (none, st)

/-- Embeds `runExtractCommands` (service.go:478-536) from the point where
the session is at hand (target expansion and session opening are facade
collaborators): options are applied against a probe response that is then
discarded, and the command loop runs against a fresh response. -/
def runExtractCommandsFrom (fuel : Nat) (ctx : Ctx) (st : Exec) (request : ExtractRequest)
    (sessionID : String) : Option GoError × Exec × RunResponse :=
  match applyCommandOptions ctx request.options st with
  | (some e, st) => (some e, st, newRunResponse sessionID)
  | (none, st) =>
    runLoop fuel ctx request.commands st (newRunResponse sessionID) request

/-- Response of the `close` operation. -/
structure CloseSessionResponse where
  sessionID : String
  deriving DecidableEq, Repr

/-- Session-pool membership (the Go map lookup in `closeSession`). -/
def poolHas (pool : List (String × Sess)) (sessionID : String) : Bool :=
  pool.any (fun p => p.1 == sessionID)

/-- Go `delete` on the session pool. -/
def poolRemove (pool : List (String × Sess)) (sessionID : String) : List (String × Sess) :=
  pool.filter (fun p => !(p.1 == sessionID))

/-- Embeds `closeSession` (service.go:538-548): close and remove the
session when present; always answer with the request's session id and no
error. `closed` records the sessions whose shells were closed. -/
def closeSession (pool : List (String × Sess)) (closed : List String) (sessionID : String) :
    (List (String × Sess) × List String) × CloseSessionResponse × Option GoError :=
  if poolHas pool sessionID then
    ((poolRemove pool sessionID, closed ++ [sessionID]), { sessionID := sessionID }, none)
  else
    ((pool, closed), { sessionID := sessionID }, none)

/-- Embeds `extractOsUser` (service.go:572-581). The
`strings.Replace(output, newline, empty, ...)` on line 578 returns a value
that the source never assigns, so the stored username keeps its newlines. -/
def extractOsUser (st : Exec) : Option GoError × Exec :=
  let r := sessionRun st "echo $USER"
  match r.2.1 with
  | some e => (some e, r.2.2)
  | none =>
    let output := escapeStdout r.1
    let _discarded := output.replace "\n" ""
    (none, { r.2.2 with sess := { (r.2.2).sess with username := output } })

/-- Newline join exactly as claim C1 words it. -/
def newlineJoin (xs : List String) : String := strJoin "\n" xs

/-- Output accumulation step actually performed by `executeCommand`
(service.go:398-402 and 418): a separating newline is inserted only when
the accumulated output is nonempty and does not already end in one. -/
def sepAppend (acc out : String) : String :=
  (if acc.length > 0 && !(strEndsWith acc "\n") then acc ++ "\n" else acc) ++ out

/-- Modelled from the spec: the terminator set exactly as claim C4 words
it, with the prompt's `$` replaced by `#` and a literal `bash` prefix
stripped when the prompt carries it. -/
def claimedTerminators (options : Options) (session : Sess) (execution : ExtractCommand) :
    List String :=
  let prompt := replaceFirst session.shellPrompt "$" "#"
  let prompt := if strStartsWith prompt "bash" then strDrop prompt 4 else prompt
  (if execution.terminators.length > 0 then execution.terminators else options.terminators)
    ++ ["$ "] ++ [prompt] ++ execution.errors

/-- The terminator prompt entry as the code computes it: the first `$`
becomes `#`, then the first two characters are dropped whenever the result
contains `bash` anywhere. -/
def amendedPromptEntry (shellPrompt : String) : String :=
  let p := replaceFirst shellPrompt "$" "#"
  if containsStr p "bash" then strDrop p 2 else p

/-- Export commands issued while rehydrating a cached environment
(service.go:218-220), in cache order. -/
def rehydrationExports (ctx : Ctx) (env : List (String × String)) : List String :=
  env.map (fun kv => exportCommandText kv.1 (ctx.expand kv.2))

/-- The cd command issued while rehydrating the previous working directory
(service.go:222) from an empty one: none when the previous directory is
empty or normalizes to the empty string. -/
def rehydrationCd (dir : String) : List String :=
  if dir == "" then [] else if normalizeDir dir == "" then [] else ["cd " ++ normalizeDir dir]

/-- A command that takes none of the special paths of the sequence runner
or of `executeCommand`: no guard predicate, no dollar expansion, no sudo
keyword, no native cd/export interception, no rm-reset, no validation
fragments and no extraction rules. -/
def plainCommand (ctx : Ctx) (c : ExtractCommand) : Prop :=
  c.when = "" ∧
  containsStr (ctx.expand c.command) "$" = false ∧
  containsStr (ctx.expand c.command) "sudo " = false ∧
  containsStr (ctx.expand c.command) "rm " = false ∧
  strStartsWith (ctx.expand c.command) "cd " = false ∧
  strStartsWith (ctx.expand c.command) "export " = false ∧
  c.errors = [] ∧ c.success = [] ∧ c.extract = []

instance (ctx : Ctx) (c : ExtractCommand) : Decidable (plainCommand ctx c) := by
  unfold plainCommand
  infer_instance

/-- Identity and trivial collaborators, for concrete runs. -/
def ctxId : Ctx :=
  { expand := fun s => s
    evalCriteria := fun _ _ => (true, none)
    expandAsText := fun _ s => s
    secretsExpand := fun s _ => (s, none)
    secretReveal := false
    applyRule := fun _ d _ => (d, none) }

/-! ## Helper lemmas -/

theorem lookupEnv_updateEnv_self (env : List (String × String)) (k v : String) :
    lookupEnv (updateEnv env k v) k = some v := by
  induction env with
  | nil => simp [updateEnv, lookupEnv]
  | cons kv rest ih =>
    cases h : kv.1 == k with
    | true => simp [updateEnv, h, lookupEnv]
    | false => simp [updateEnv, h, lookupEnv, ih]

theorem lookupEnv_updateEnv_ne (env : List (String × String)) (k k' v : String)
    (hne : k' ≠ k) : lookupEnv (updateEnv env k v) k' = lookupEnv env k' := by
  induction env with
  | nil => simp [updateEnv, lookupEnv, Ne.symm hne]
  | cons kv rest ih =>
    cases h : kv.1 == k with
    | true =>
      have hk : kv.1 = k := by simpa using h
      simp [updateEnv, h, lookupEnv, hk, hne, Ne.symm hne]
    | false => simp [updateEnv, h, lookupEnv, ih]

theorem envCached_true_iff (env : List (String × String)) (name v : String) :
    envCached env name v = true ↔ lookupEnv env name = some v := by
  unfold envCached
  cases h : lookupEnv env name with
  | none => simp
  | some actual =>
    simp only [beq_iff_eq]
    constructor
    · intro hv; rw [hv]
    · intro hv; exact (Option.some.injEq _ _ ▸ hv).symm ▸ rfl

theorem execRun_ok (ctx : Ctx) (st : Exec) (c : String) (t : Nat) (ts : List String)
    (out : String) (rest : List (String × Option GoError))
    (h : st.script = (out, none) :: rest) :
    execRun ctx st c t ts =
      (out, none, { st with script := rest, issued := st.issued ++ [c] }) := by
  unfold execRun sessionRun
  rw [h]

theorem sessionRun_issued (st : Exec) (c : String) :
    ((sessionRun st c).2.2).issued = st.issued ++ [c] := by
  unfold sessionRun
  cases st.script <;> rfl

theorem sessionRun_sess (st : Exec) (c : String) :
    ((sessionRun st c).2.2).sess = st.sess := by
  unfold sessionRun
  cases st.script <;> rfl

theorem sessionRun_reconnects (st : Exec) (c : String) :
    ((sessionRun st c).2.2).reconnects = st.reconnects := by
  unfold sessionRun
  cases st.script <;> rfl

theorem setEnvVariable_cached (ctx : Ctx) (st : Exec) (name v : String)
    (h : envCached st.sess.envVariables name (ctx.expand v) = true) :
    setEnvVariable ctx st name v = (none, st) := by
  unfold setEnvVariable
  simp [h]

theorem sessionRun_cons (st : Exec) (c : String) (r : String × Option GoError)
    (rest : List (String × Option GoError)) (h : st.script = r :: rest) :
    sessionRun st c = (r.1, r.2, { st with script := rest, issued := st.issued ++ [c] }) := by
  unfold sessionRun
  rw [h]

theorem setEnvVariable_uncached (ctx : Ctx) (st : Exec) (name v : String)
    (h : envCached st.sess.envVariables name (ctx.expand v) = false) :
    setEnvVariable ctx st name v =
      ((sessionRun (envUpdatedState st name (ctx.expand v))
          (exportCommandText name (ctx.expand v))).2.1,
        (sessionRun (envUpdatedState st name (ctx.expand v))
          (exportCommandText name (ctx.expand v))).2.2) := by
  unfold setEnvVariable rumCommandTemplate envUpdatedState
  simp [h]

theorem lookupEnv_setEnvVariable (ctx : Ctx) (st : Exec) (name v : String) :
    lookupEnv ((setEnvVariable ctx st name v).2).sess.envVariables name =
      some (ctx.expand v) := by
  cases h : envCached st.sess.envVariables name (ctx.expand v) with
  | true =>
    rw [setEnvVariable_cached ctx st name v h]
    exact (envCached_true_iff _ _ _).mp h
  | false =>
    rw [setEnvVariable_uncached ctx st name v h]
    rw [sessionRun_sess]
    exact lookupEnv_updateEnv_self _ _ _

/-! ## Claim C4: terminator set assembly -/

/-- C4 counterexample: for the shell prompt "bash-3.2$" the code appends
the terminator entry "sh-3.2#" (first two characters dropped because the
string contains "bash"), not "-3.2#" (the "bash" prefix stripped) as the
claim describes. -/
theorem C4_counterexample :
    getTerminators {} { shellPrompt := "bash-3.2$" } {} = ["$ ", "sh-3.2#"] ∧
    claimedTerminators {} { shellPrompt := "bash-3.2$" } {} = ["$ ", "-3.2#"] ∧
    getTerminators {} { shellPrompt := "bash-3.2$" } {} ≠
      claimedTerminators {} { shellPrompt := "bash-3.2$" } {} :=
  ⟨by decide, by decide, by decide⟩

/-- C4 (amended): the terminator set is extractCmd.Terminators when
non-empty, otherwise options.Terminators; then the literal "$ "; then the
session's shell prompt with its first "$" replaced by "#" and its first two
characters dropped whenever the result contains "bash" anywhere; then the
command's Errors list. -/
theorem C4_terminator_assembly (options : Options) (session : Sess)
    (execution : ExtractCommand) :
    getTerminators options session execution =
      (if execution.terminators.length > 0 then execution.terminators
        else options.terminators) ++ ["$ "] ++ [amendedPromptEntry session.shellPrompt] ++
        execution.errors := by
  unfold getTerminators amendedPromptEntry
  by_cases h : execution.terminators.length > 0 <;> simp [h, List.append_assoc]

/-! ## Claim C7: error fragments take precedence over success fragments -/

/-- C7: when an Errors fragment and a Success fragment both appear in
stdout (escape-insensitively, as the source's own fragment matcher finds
them), `validateStdout` fails with the encounter-error-fragment message,
never the failed-to-match-Success one. -/
theorem C7_error_fragment_precedence (stdout command : String) (execution : ExtractCommand)
    (herr : matchFragment stdout execution.errors ≠ "")
    (_hsucc : matchFragment stdout execution.success ≠ "") :
    validateStdout stdout command execution =
      some (GoError.msg ("encounter error fragment: (" ++
        matchFragment stdout execution.errors ++ "), command:" ++ command ++
        ", stdout: " ++ stdout)) := by
  have h : (matchFragment stdout execution.errors != "") = true := by
    simpa [bne_iff_ne] using herr
  unfold validateStdout
  simp [h]

theorem C7_witness :
    validateStdout "bad ok" "cmd" { errors := ["bad"], success := ["ok"] } =
      some (GoError.msg ("encounter error fragment: (" ++
        matchFragment "bad ok" ["bad"] ++ "), command:" ++ "cmd" ++ ", stdout: " ++
        "bad ok")) :=
  C7_error_fragment_precedence "bad ok" "cmd" { errors := ["bad"], success := ["ok"] }
    (by decide) (by decide)

/-! ## Claim C8: extractOsUser keeps newlines in the username -/

/-- C8: after OS detection the stored username is exactly the escaped
stdout of echo-USER; the newline replacement inside `extractOsUser` is
computed and discarded, so any newline in the escaped stdout stays in the
username. -/
theorem C8_username_keeps_newlines (st : Exec) (out : String)
    (rest : List (String × Option GoError)) (h : st.script = (out, none) :: rest) :
    ((extractOsUser st).2).sess.username = escapeStdout out ∧
    (containsStr (escapeStdout out) "\n" = true →
      containsStr ((extractOsUser st).2).sess.username "\n" = true) := by
  unfold extractOsUser sessionRun
  rw [h]
  constructor
  · rfl
  · intro hc
    exact hc

theorem C8_witness :
    ((extractOsUser { script := [("root\n", none)] }).2).sess.username = escapeStdout "root\n" ∧
    ((extractOsUser { script := [("root\n", none)] }).2).sess.username = "root\n" :=
  ⟨(C8_username_keeps_newlines { script := [("root\n", none)] } "root\n" [] rfl).1,
    ((C8_username_keeps_newlines { script := [("root\n", none)] } "root\n" [] rfl).1).trans
      (by decide)⟩

/-! ## Claim C9: closeSession is total and idempotent -/

theorem poolHas_poolRemove (pool : List (String × Sess)) (sessionID : String) :
    poolHas (poolRemove pool sessionID) sessionID = false := by
  simp only [poolHas, poolRemove]
  rw [Bool.eq_false_iff]
  intro hany
  rcases List.any_eq_true.mp hany with ⟨x, hx, hbeq⟩
  rcases List.mem_filter.mp hx with ⟨-, hkeep⟩
  simp [hbeq] at hkeep

/-- C9: `closeSession` is total and idempotent at the facade: a missing
SessionID closes no shell, leaves the pool unchanged and still answers
with that SessionID and a nil error; a second close of the same id is a
no-op that also succeeds. -/
theorem C9_closeSession_total (pool : List (String × Sess)) (closed : List String)
    (sessionID : String) :
    (poolHas pool sessionID = false →
      closeSession pool closed sessionID =
        ((pool, closed), { sessionID := sessionID }, none)) ∧
    closeSession (closeSession pool closed sessionID).1.1
        (closeSession pool closed sessionID).1.2 sessionID =
      (((closeSession pool closed sessionID).1.1, (closeSession pool closed sessionID).1.2),
        { sessionID := sessionID }, none) := by
  constructor
  · intro h
    simp [closeSession, h]
  · by_cases h : poolHas pool sessionID = true
    · simp [closeSession, h, poolHas_poolRemove]
    · simp [closeSession, h]

theorem C9_witness :
    closeSession ([("a", {})] : List (String × Sess)) [] "b" =
      (([("a", {})], []), { sessionID := "b" }, none) :=
  (C9_closeSession_total [("a", {})] [] "b").1 (by decide)

/-! ## Claim C3: the env cache is written before the export runs -/

/-- C3 counterexample: with "K" cached as "old" and the shell failing the
export, `setEnvVariable` surfaces the error yet has already rewritten the
cache to "new", so the cache does not wait for the export to succeed. -/
theorem C3_counterexample :
    (setEnvVariable ctxId
      { sess := { envVariables := [("K", "old")] },
        script := [("", some (GoError.msg "io"))] } "K" "new").1 =
        some (GoError.msg "io") ∧
    (setEnvVariable ctxId
      { sess := { envVariables := [("K", "old")] },
        script := [("", some (GoError.msg "io"))] } "K" "new").2.sess.envVariables =
        [("K", "new")] ∧
    (setEnvVariable ctxId
      { sess := { envVariables := [("K", "old")] },
        script := [("", some (GoError.msg "io"))] } "K" "new").2.sess.envVariables ≠
        [("K", "old")] :=
  ⟨by decide, by decide, by decide⟩

/-- C3 (amended): `setEnvVariable` writes the cached map before issuing the
export, so when the shell export fails the error is surfaced while the
cache nevertheless already holds the new value. -/
theorem C3_cache_written_before_export (ctx : Ctx) (st : Exec) (name v out : String)
    (e : GoError) (rest : List (String × Option GoError))
    (hscript : st.script = (out, some e) :: rest)
    (hnew : lookupEnv st.sess.envVariables name ≠ some (ctx.expand v)) :
    (setEnvVariable ctx st name v).1 = some e ∧
    lookupEnv ((setEnvVariable ctx st name v).2).sess.envVariables name =
      some (ctx.expand v) := by
  have hcache : envCached st.sess.envVariables name (ctx.expand v) = false := by
    rw [Bool.eq_false_iff]
    intro hc
    exact hnew ((envCached_true_iff _ _ _).mp hc)
  rw [setEnvVariable_uncached ctx st name v hcache,
    sessionRun_cons (envUpdatedState st name (ctx.expand v)) _ (out, some e) rest hscript]
  exact ⟨rfl, lookupEnv_updateEnv_self _ _ _⟩

theorem C3_witness :
    (setEnvVariable ctxId
      { sess := { envVariables := [("K", "old")] },
        script := [("cmd not found", some (GoError.msg "broken pipe"))] } "K" "new").1 =
        some (GoError.msg "broken pipe") ∧
    lookupEnv ((setEnvVariable ctxId
      { sess := { envVariables := [("K", "old")] },
        script := [("cmd not found", some (GoError.msg "broken pipe"))] }
        "K" "new").2).sess.envVariables "K" = some (ctxId.expand "new") :=
  C3_cache_written_before_export ctxId
    { sess := { envVariables := [("K", "old")] },
      script := [("cmd not found", some (GoError.msg "broken pipe"))] }
    "K" "new" "cmd not found" (GoError.msg "broken pipe") [] rfl (by decide)

/-! ## Claim C5: setEnvVariable is idempotent -/

/-- C5: exporting the same name and value twice issues the shell export at
most once: the second call returns no error and leaves the state (cache and
shell trace) untouched, and when the value was not already cached the first
call issues the export exactly once. -/
theorem C5_setEnvVariable_idempotent (ctx : Ctx) (st : Exec) (name v : String) :
    setEnvVariable ctx (setEnvVariable ctx st name v).2 name v =
      (none, (setEnvVariable ctx st name v).2) ∧
    (lookupEnv st.sess.envVariables name ≠ some (ctx.expand v) →
      ((setEnvVariable ctx st name v).2).issued =
        st.issued ++ [exportCommandText name (ctx.expand v)]) := by
  constructor
  · exact setEnvVariable_cached ctx (setEnvVariable ctx st name v).2 name v
      ((envCached_true_iff _ _ _).mpr (lookupEnv_setEnvVariable ctx st name v))
  · intro hnew
    have hcache : envCached st.sess.envVariables name (ctx.expand v) = false := by
      rw [Bool.eq_false_iff]
      intro hc
      exact hnew ((envCached_true_iff _ _ _).mp hc)
    rw [setEnvVariable_uncached ctx st name v hcache]
    exact sessionRun_issued _ _

theorem C5_witness :
    setEnvVariable ctxId (setEnvVariable ctxId { script := [("", none)] } "K" "V").2 "K" "V" =
      (none, (setEnvVariable ctxId { script := [("", none)] } "K" "V").2) ∧
    ((setEnvVariable ctxId { script := [("", none)] } "K" "V").2).issued =
      [] ++ [exportCommandText "K" (ctxId.expand "V")] :=
  ⟨(C5_setEnvVariable_idempotent ctxId { script := [("", none)] } "K" "V").1,
    (C5_setEnvVariable_idempotent ctxId { script := [("", none)] } "K" "V").2 (by decide)⟩

/-! ## Claim C6: changeDirectory -/

/-- C6: `changeDirectory` replaces a directory ending in a file extension
by its parent and strips a trailing slash (both inside `normalizeDir`); it
issues no shell command when the normalized directory is already current —
so cd X twice issues the shell cd once — and on a successful run it updates
CurrentDirectory exactly when stdout does not indicate
"No such file or directory". -/
theorem C6_changeDirectory (ctx : Ctx) (st : Exec) (d : String) :
    ((d = "" ∨ normalizeDir d = st.sess.currentDirectory) →
      changeDirectory ctx st d = ("", none, st)) ∧
    (∀ out rest, st.script = (out, none) :: rest → d ≠ "" →
      normalizeDir d ≠ st.sess.currentDirectory →
      changeDirectory ctx st d =
        (out, none,
          { st with script := rest, issued := st.issued ++ ["cd " ++ normalizeDir d], sess := { st.sess with currentDirectory := (if checkNoSuchFileOrDirectory out then st.sess.currentDirectory else normalizeDir d) } })) ∧
    (∀ out rest, st.script = (out, none) :: rest → d ≠ "" →
      normalizeDir d ≠ st.sess.currentDirectory →
      checkNoSuchFileOrDirectory out = false →
      changeDirectory ctx ((changeDirectory ctx st d).2.2) d =
        ("", none, (changeDirectory ctx st d).2.2)) := by
  have hskip : ∀ st' : Exec, (d = "" ∨ normalizeDir d = st'.sess.currentDirectory) →
      changeDirectory ctx st' d = ("", none, st') := by
    intro st' hor
    unfold changeDirectory
    by_cases hd : d = ""
    · simp [hd]
    · rcases hor with h | h
      · exact absurd h hd
      · simp [hd, h]
  have hmain : ∀ out rest, st.script = (out, none) :: rest → d ≠ "" →
      normalizeDir d ≠ st.sess.currentDirectory →
      changeDirectory ctx st d =
        (out, none,
          { st with script := rest, issued := st.issued ++ ["cd " ++ normalizeDir d], sess := { st.sess with currentDirectory := (if checkNoSuchFileOrDirectory out then st.sess.currentDirectory else normalizeDir d) } }) := by
    intro out rest hs hd hne
    have hbeq : (st.sess.currentDirectory == normalizeDir d) = false :=
      beq_eq_false_iff_ne.mpr (Ne.symm hne)
    by_cases hns : checkNoSuchFileOrDirectory out
    · unfold changeDirectory rumCommandTemplate
      simp [sessionRun_cons st _ (out, none) rest hs, hd, hbeq, hns]
    · unfold changeDirectory rumCommandTemplate
      simp [sessionRun_cons st _ (out, none) rest hs, hd, hbeq, hns]
  refine ⟨hskip st, hmain, ?_⟩
  intro out rest hs hd hne hns
  rw [hmain out rest hs hd hne]
  exact hskip _ (Or.inr (by simp [hns]))

theorem C6_witness :
    changeDirectory ctxId { script := [("", none)] } "/tmp/" =
      ("", none,
        { sess := { currentDirectory := "/tmp" }, script := [], issued := ["cd /tmp"] }) ∧
    changeDirectory ctxId
        { sess := { currentDirectory := "/tmp" }, script := [], issued := ["cd /tmp"] }
        "/tmp/" =
      ("", none,
        { sess := { currentDirectory := "/tmp" }, script := [], issued := ["cd /tmp"] }) := by
  obtain ⟨hA1, hB1, hC1⟩ := C6_changeDirectory ctxId { script := [("", none)] } "/tmp/"
  obtain ⟨hA2, hB2, hC2⟩ := C6_changeDirectory ctxId
    { sess := { currentDirectory := "/tmp" }, script := [], issued := ["cd /tmp"] } "/tmp/"
  constructor
  · exact (hB1 "" [] rfl (by decide) (by decide)).trans (by decide)
  · exact hA2 (Or.inr (by decide))

/-! ## Claim C10: malformed export resets the env cache -/

/-- C10: an `export REST` command without `&&` whose REST does not split on
`=` into exactly two parts makes the sequence runner clear the entire
cached EnvVariables map before delegating the command to
`executeCommand`. -/
theorem C10_export_malformed_resets_env (fuel : Nat) (ctx : Ctx) (st : Exec)
    (c : ExtractCommand) (response : RunResponse) (request : ExtractRequest)
    (hexp : strStartsWith (ctx.expand c.command) "export " = true)
    (hcd : strStartsWith (ctx.expand c.command) "cd " = false)
    (hamp : containsStr (ctx.expand c.command) "&&" = false)
    (hsplit : (strSplitOn (strDrop (ctx.expand c.command) 7) "=").length ≠ 2)
    (hrm : (containsStr (ctx.expand c.command) "rm " &&
      containsStr (ctx.expand c.command) st.sess.currentDirectory) = false) :
    execStep fuel ctx st c response request =
      executeCommand fuel ctx { st with sess := { st.sess with envVariables := [] } } c
        response request := by
  unfold execStep
  simp only [hrm, hcd, hexp, hamp, Bool.false_eq_true, if_false, if_true, Bool.not_false]
  rcases hsp : strSplitOn (strDrop (ctx.expand c.command) 7) "=" with _ | ⟨a, _ | ⟨b, _ | ⟨x, xs⟩⟩⟩
  · rfl
  · rfl
  · rw [hsp] at hsplit
    simp at hsplit
  · rfl

theorem C10_witness :
    execStep 3 ctxId { sess := { envVariables := [("A", "1")] } }
        { command := "export K=a=b" } (newRunResponse "s") {} =
      executeCommand 3 ctxId { sess := { envVariables := [] } } { command := "export K=a=b" }
        (newRunResponse "s") {} := by
  have h := C10_export_malformed_resets_env 3 ctxId { sess := { envVariables := [("A", "1")] } }
    { command := "export K=a=b" } (newRunResponse "s") {} (by decide) (by decide) (by decide)
    (by decide) (by decide)
  exact h

/-! ## Claim C2: reconnect-and-retry policy of the run helper -/

theorem foldl_setEnv_trace (ctx : Ctx) :
    ∀ (env : List (String × String)) (st : Exec),
      (∀ k, k ∈ env.map Prod.fst → lookupEnv st.sess.envVariables k = none) →
      (env.map Prod.fst).Nodup →
      (env.foldl (fun acc kv => (setEnvVariable ctx acc kv.1 kv.2).2) st).issued =
          st.issued ++ rehydrationExports ctx env ∧
      (env.foldl (fun acc kv => (setEnvVariable ctx acc kv.1 kv.2).2) st).sess.currentDirectory =
          st.sess.currentDirectory := by
  intro env
  induction env with
  | nil =>
    intro st _ _
    simp [rehydrationExports]
  | cons kv rest ih =>
    intro st hnone hnodup
    have hk : lookupEnv st.sess.envVariables kv.1 = none := hnone kv.1 (by simp)
    have hcache : envCached st.sess.envVariables kv.1 (ctx.expand kv.2) = false := by
      unfold envCached
      rw [hk]
    have hstep := congrArg Prod.snd (setEnvVariable_uncached ctx st kv.1 kv.2 hcache)
    have hsess : ((setEnvVariable ctx st kv.1 kv.2).2).sess =
        (envUpdatedState st kv.1 (ctx.expand kv.2)).sess := by
      rw [hstep]
      exact sessionRun_sess _ _
    have hiss : ((setEnvVariable ctx st kv.1 kv.2).2).issued =
        st.issued ++ [exportCommandText kv.1 (ctx.expand kv.2)] := by
      rw [hstep]
      exact sessionRun_issued _ _
    have hrest := ih ((setEnvVariable ctx st kv.1 kv.2).2)
      (by
        intro k hkmem
        have hkne : k ≠ kv.1 := by
          intro hkk
          rw [List.map_cons] at hnodup
          exact (List.nodup_cons.mp hnodup).1 (hkk ▸ hkmem)
        rw [hsess]
        unfold envUpdatedState
        rw [lookupEnv_updateEnv_ne _ _ _ _ hkne]
        exact hnone k (by simp [hkmem]))
      (by
        rw [List.map_cons] at hnodup
        exact (List.nodup_cons.mp hnodup).2)
    constructor
    · rw [List.foldl_cons, hrest.1, hiss]
      simp [rehydrationExports, List.append_assoc]
    · rw [List.foldl_cons, hrest.2, hsess]
      rfl

theorem changeDirectory_issued_from_root (ctx : Ctx) (st : Exec) (dir : String)
    (h : st.sess.currentDirectory = "") :
    ((changeDirectory ctx st dir).2.2).issued = st.issued ++ rehydrationCd dir := by
  unfold changeDirectory rehydrationCd
  by_cases hd : dir = ""
  · simp [hd]
  · by_cases hn : normalizeDir dir = ""
    · simp [hd, hn, h]
    · have hbeq : (st.sess.currentDirectory == normalizeDir dir) = false := by
        rw [h]
        exact beq_eq_false_iff_ne.mpr (Ne.symm hn)
      simp only [beq_iff_eq, hd, if_false, hbeq, Bool.false_eq_true, hn]
      unfold rumCommandTemplate
      rcases hr : (sessionRun st ("cd " ++ normalizeDir dir)).2.1 with _ | e
      · by_cases hns : checkNoSuchFileOrDirectory (sessionRun st ("cd " ++ normalizeDir dir)).1
        · simp [hr, hns, sessionRun_issued]
        · simp [hr, hns, sessionRun_issued]
      · simp [hr, sessionRun_issued]

/-- C2: the run helper retries only on the distinguished Terminated error:
after a successful reconnect it re-exports every previously cached variable
and re-issues the cd to the previous working directory (through
`changeDirectory`), then retries the command exactly once — the issued
trace carries the command exactly twice; any other error is surfaced to
the caller without a retry. -/
theorem C2_run_reconnect_policy (ctx : Ctx) (command : String) (timeoutMs : Nat)
    (terminators : List String) (st : Exec) :
    (∀ out e rest, st.script = (out, some (GoError.msg e)) :: rest →
      execRun ctx st command timeoutMs terminators =
        (out, some (GoError.msg e),
          { st with script := rest, issued := st.issued ++ [command] })) ∧
    (∀ out rest recs, st.script = (out, some GoError.terminated) :: rest →
      st.reconnects = none :: recs →
      (st.sess.envVariables.map Prod.fst).Nodup →
      ((execRun ctx st command timeoutMs terminators).2.2).issued =
        st.issued ++ [command] ++ rehydrationExports ctx st.sess.envVariables ++
          rehydrationCd st.sess.currentDirectory ++ [command]) := by
  constructor
  · intro out e rest hs
    unfold execRun
    rw [sessionRun_cons st _ (out, some (GoError.msg e)) rest hs]
  · intro out rest recs hs hr hnodup
    unfold execRun
    rw [sessionRun_cons st _ (out, some GoError.terminated) rest hs]
    unfold sessionReconnect
    simp only []
    rw [hr]
    simp only []
    rw [sessionRun_issued]
    rw [changeDirectory_issued_from_root]
    · have hfold := foldl_setEnv_trace ctx st.sess.envVariables
        { sess := { st.sess with envVariables := [], currentDirectory := "" },
          script := rest, reconnects := recs, issued := st.issued ++ [command] }
        (fun k _ => rfl) hnodup
      rw [hfold.1]
    · have hfold := foldl_setEnv_trace ctx st.sess.envVariables
        { sess := { st.sess with envVariables := [], currentDirectory := "" },
          script := rest, reconnects := recs, issued := st.issued ++ [command] }
        (fun k _ => rfl) hnodup
      exact hfold.2

theorem C2_witness :
    ((execRun ctxId
        { sess := { envVariables := [("A", "1"), ("B", "2 x")], currentDirectory := "/tmp" },
          script := [("x", some GoError.terminated), ("", none), ("", none), ("ok", none)],
          reconnects := [none] } "ls" 0 []).2.2).issued =
      ["ls", "export A=1", "export B=" ++ squote ++ "2 x" ++ squote, "cd /tmp", "ls"] ∧
    execRun ctxId
        { sess := {}, script := [("boom", some (GoError.msg "io"))], reconnects := [none] }
        "ls" 0 [] =
      ("boom", some (GoError.msg "io"),
        { sess := {}, script := [], reconnects := [none], issued := ["ls"] }) := by
  constructor
  · have h := (C2_run_reconnect_policy ctxId "ls" 0 []
      { sess := { envVariables := [("A", "1"), ("B", "2 x")], currentDirectory := "/tmp" },
        script := [("x", some GoError.terminated), ("", none), ("", none), ("ok", none)],
        reconnects := [none] }).2 "x" [("", none), ("", none), ("ok", none)] [] rfl rfl
      (by decide)
    exact h.trans (by decide)
  · exact (C2_run_reconnect_policy ctxId "ls" 0 []
      { sess := {}, script := [("boom", some (GoError.msg "io"))], reconnects := [none] }).1
      "boom" "io" [] rfl

theorem executeCommand_plain_step (k : Nat) (ctx : Ctx) (st : Exec) (c : ExtractCommand)
    (resp : RunResponse) (req : ExtractRequest) (out : String)
    (rest : List (String × Option GoError))
    (hc : plainCommand ctx c) (hsu : req.superUser = false) (has : req.autoSudo = false)
    (hce : req.checkError = false)
    (hsec : ∀ x, ctx.secretsExpand x req.secrets = (x, none))
    (hs : st.script = (out, none) :: rest) :
    executeCommand (k + 1) ctx st c resp req =
      (none, { st with script := rest, issued := st.issued ++ [ctx.expand c.command] },
        { resp with output := sepAppend resp.output out,
                    cmd := resp.cmd ++ [{ stdin := ctx.expand c.command, stdout := out, error := none }] }) := by
  obtain ⟨hwhen, hdollar, hsudo, hrm, hcd, hexport, herr, hsucc, hex⟩ := hc
  unfold executeCommand
  simp only [hwhen, hdollar, hsudo, hsu, has, hce, hex, hsec,
    execRun_ok ctx st (ctx.expand c.command) (if c.timeoutMs > 0 then c.timeoutMs else req.options.timeoutMs) (getTerminators req.options st.sess c) out rest hs,
    Bool.or_false, Bool.false_and, Bool.and_false, if_false, ite_self,
    bne_self_eq_false, Bool.false_eq_true, executeAuthAndFinish, executeCommandFinish]
  have hval : validateStdout out (ctx.expand c.command) c = none := by
    unfold validateStdout matchFragment
    rw [herr, hsucc]
    rfl
  simp only [hval, runExtractRules]
  unfold sepAppend addLog
  by_cases hb : (decide (resp.output.length > 0) && !strEndsWith resp.output "\n") = true
  · simp [hb]
  · simp [hb]

theorem runLoop_plain (k : Nat) (ctx : Ctx) (req : ExtractRequest)
    (hsu : req.superUser = false) (has : req.autoSudo = false) (hce : req.checkError = false)
    (hsec : ∀ x, ctx.secretsExpand x req.secrets = (x, none)) :
    ∀ (cmds : List ExtractCommand) (outs : List String) (st : Exec) (resp : RunResponse),
      (∀ c ∈ cmds, plainCommand ctx c) →
      st.script = outs.map (fun o => (o, (none : Option GoError))) →
      cmds.length = outs.length →
      runLoop (k + 1) ctx cmds st resp req =
        (none,
          { st with script := [], issued := st.issued ++ cmds.map (fun c => ctx.expand c.command) },
          { resp with output := outs.foldl sepAppend resp.output,
                      cmd := resp.cmd ++ (cmds.zip outs).map (fun p => { stdin := ctx.expand p.1.command, stdout := p.2, error := none }) }) := by
  intro cmds
  induction cmds with
  | nil =>
    intro outs st resp _ hscript hlen
    have houts : outs = [] := by
      cases outs with
      | nil => rfl
      | cons o os => simp at hlen
    subst houts
    cases st with
    | mk sess script reconnects issued =>
      simp only [List.map_nil] at hscript
      subst hscript
      simp [runLoop]
  | cons c cs ih =>
    intro outs st resp hplain hscript hlen
    cases outs with
    | nil => simp at hlen
    | cons o os =>
      obtain ⟨hwhen, hdollar, hsudo, hrm, hcd, hexport, herr, hsucc, hex⟩ :=
        hplain c (by simp)
      have hstep : execStep (k + 1) ctx st c resp req =
          executeCommand (k + 1) ctx st c resp req := by
        unfold execStep
        simp [hrm, hcd, hexport]
      have hexec := executeCommand_plain_step k ctx st c resp req o
        (os.map (fun o => (o, (none : Option GoError)))) (hplain c (by simp)) hsu has hce hsec
        (by rw [hscript]; rfl)
      unfold runLoop
      rw [hstep, hexec]
      simp only []
      rw [ih os _ _ (fun c2 h2 => hplain c2 (by simp [h2])) rfl (by simpa using hlen)]
      simp [List.append_assoc]

/-- C1 (amended): for a request whose commands take no special path, the
final Output is the left fold of the executed stdouts under `sepAppend` — a
separating newline is inserted only when the accumulated output is nonempty
and does not already end in a newline — and the Cmd log stdouts are exactly
the executed stdouts. This is not the unconditional newline join the claim
states. -/
theorem C1_output_accumulation (k : Nat) (ctx : Ctx) (st : Exec) (req : ExtractRequest)
    (sessionID : String) (outs : List String)
    (hopts : req.options = {})
    (hplain : ∀ c ∈ req.commands, plainCommand ctx c)
    (hsu : req.superUser = false) (has : req.autoSudo = false) (hce : req.checkError = false)
    (hsec : ∀ x, ctx.secretsExpand x req.secrets = (x, none))
    (hscript : st.script = outs.map (fun o => (o, (none : Option GoError))))
    (hlen : req.commands.length = outs.length) :
    (runExtractCommandsFrom (k + 1) ctx st req sessionID).1 = none ∧
    ((runExtractCommandsFrom (k + 1) ctx st req sessionID).2.2).output =
        outs.foldl sepAppend "" ∧
    ((runExtractCommandsFrom (k + 1) ctx st req sessionID).2.2).cmd.map CommandLog.stdout =
        outs := by
  have hopts' : applyCommandOptions ctx req.options st = (none, st) := by
    rw [hopts]
    rfl
  unfold runExtractCommandsFrom
  simp only [hopts']
  rw [runLoop_plain k ctx req hsu has hce hsec req.commands outs st
    (newRunResponse sessionID) hplain hscript hlen]
  refine ⟨rfl, rfl, ?_⟩
  simp only [newRunResponse, List.nil_append, List.map_map]
  have hcomp : (CommandLog.stdout ∘ fun p : ExtractCommand × String =>
      ({ stdin := ctx.expand p.1.command, stdout := p.2, error := none } : CommandLog)) =
      Prod.snd := rfl
  rw [hcomp]
  exact List.map_snd_zip _ _ (le_of_eq hlen.symm)

theorem C1_witness :
    ((runExtractCommandsFrom 4 ctxId { script := [("a\n", none), ("b", none)] }
        { commands := [{ command := "echo one" }, { command := "echo two" }] } "s").2.2).output
      = sepAppend (sepAppend "" "a\n") "b" := by
  have h := C1_output_accumulation 3 ctxId { script := [("a\n", none), ("b", none)] }
    { commands := [{ command := "echo one" }, { command := "echo two" }] } "s" ["a\n", "b"]
    rfl (by decide) rfl rfl rfl (fun x => rfl) rfl rfl
  exact h.2.1

/-- C1 counterexample: with stdouts "a\n" then "b" (nothing suppressed:
both commands carry an empty When and are executed), the final Output is
"a\nb" while the newline join of the executed Cmd stdouts is "a\n\nb". -/
theorem C1_counterexample :
    ((runExtractCommandsFrom 4 ctxId { script := [("a\n", none), ("b", none)] }
        { commands := [{ command := "echo one" }, { command := "echo two" }] } "s").2.2).output
      = "a\nb" ∧
    ((runExtractCommandsFrom 4 ctxId { script := [("a\n", none), ("b", none)] }
        { commands := [{ command := "echo one" }, { command := "echo two" }] } "s").2.2).cmd.map
        CommandLog.stdout = ["a\n", "b"] ∧
    ((runExtractCommandsFrom 4 ctxId { script := [("a\n", none), ("b", none)] }
        { commands := [{ command := "echo one" }, { command := "echo two" }] } "s").2.2).output ≠
      newlineJoin (((runExtractCommandsFrom 4 ctxId { script := [("a\n", none), ("b", none)] }
        { commands := [{ command := "echo one" }, { command := "echo two" }] } "s").2.2).cmd.map
        CommandLog.stdout) :=
  ⟨by decide, by decide, by decide⟩
